import Mathlib

/-!
Verification development for the GraphRAG explorer sample
(ingestion-dedup pipeline, dual-retrieval query orchestrator,
tenant reset coordinator, and the chat UI's upload / query handlers).

The chat UI handlers are embedded from `src/ui/src/pages/GraphRAGChat.tsx`.
The backend Lambda handlers (document-processor and query-handler) are not
part of the source tree here, so the ingestion pipeline, the query
orchestrator, the registry and the knowledge-store interface are modelled
from the specification (sections 3, 4.1 to 4.4), with the registry's key
schema taken from the DynamoDB table declared in
`src/infra/lib/graphrag-stack.ts` (partition key `userId`, sort key
`s3Path`, global secondary index `md5-index` keyed on `md5` alone).
-/

namespace GraphRAG

/-- Status of an ingestion record: `Indexed` or `Failed` (spec section 3). -/
inductive Status where
  | indexed
  | failed
deriving DecidableEq

/-- Modelled from the spec: the ContentFingerprint computed by the missing
document-processor Lambda as `md5(user_id + tenant_id + file_content)`.
The hash is abstracted as an injective function of the tuple
`(UserID, TenantID, raw bytes)` — MD5 collisions and ambiguity of the
unseparated concatenation are abstracted away, per the spec's invariant
"identical tuple ⇒ identical fingerprint". -/
structure Fingerprint where
  userId : String
  tenantId : String
  content : String
deriving DecidableEq

/-- Modelled from the spec (section 3): an IngestionRecord, one row of the
Document Registry. The DynamoDB table in `graphrag-stack.ts` keys rows by
(`userId`, `s3Path`) and carries the `md5` attribute indexed by the
`md5-index` GSI. -/
structure IngestionRecord where
  userId : String
  tenantId : String
  md5 : Fingerprint
  s3Path : String
  fileName : String
  uploadedAt : Nat
  chunkCount : Nat
  status : Status
deriving DecidableEq

/-- Modelled from the spec: the dedup lookup against the `md5-index`
global secondary index, which is keyed on the fingerprint value alone
(no tenant in the index key); a hit requires `Status = Indexed`
(spec section 4.2 step 3). -/
def lookup (reg : List IngestionRecord) (fp : Fingerprint) :
    Option IngestionRecord :=
  reg.find? (fun r => decide (r.md5 = fp) && decide (r.status = Status.indexed))

/-- Modelled from the spec (section 4.1): `Put` is insert-or-replace by the
registry's primary identity — (`userId`, `s3Path`), the DynamoDB
partition/sort key pair. -/
def put (r : IngestionRecord) (reg : List IngestionRecord) :
    List IngestionRecord :=
  r :: reg.filter (fun x => !(decide (x.userId = r.userId) && decide (x.s3Path = r.s3Path)))

/-- Modelled from the spec (section 4.1): `ListByUser` returns the rows
owned by one user. -/
def listByUser (u : String) (reg : List IngestionRecord) :
    List IngestionRecord :=
  reg.filter (fun r => decide (r.userId = u))

/-- Modelled from the spec (section 4.1): `DeleteAllForTenant` removes every
row scoped to the tenant. -/
def deleteAllForTenant (t : String) (reg : List IngestionRecord) :
    List IngestionRecord :=
  reg.filter (fun r => !(decide (r.tenantId = t)))

/-- Accepted upload extensions: `.txt` and `.md` only (DEPLOYMENT.md
"Supported File Types"; the UI input's `accept=".txt,.md"`). The
ends-with test is expressed over the character list of the name. -/
def hasSupportedExtension (name : String) : Bool :=
  List.isSuffixOf ".txt".data name.data || List.isSuffixOf ".md".data name.data

/-- Storage path for an uploaded document:
`private/{user_id}/{tenant_id}/documents/{fileName}` (DEPLOYMENT.md). -/
def storagePath (u t fn : String) : String :=
  "private/" ++ u ++ "/" ++ t ++ "/documents/" ++ fn

/-- Errors surfaced by the ingestion pipeline (spec section 7). -/
inductive IngestError where
  | unsupportedFormat
  | indexingFailed
deriving DecidableEq

/-- Result of a successful `Ingest` call: whether the content was already
processed, and the chunk count reported for it. -/
structure IngestOutcome where
  alreadyProcessed : Bool
  chunksCreated : Nat
deriving DecidableEq

/-- State touched by the ingestion pipeline: the registry rows, the durable
storage writes (path, content) and the log of `KnowledgeStore.Index`
invocations (tenant, docId, content). -/
structure PipelineState where
  registry : List IngestionRecord
  storage : List (String × String)
  indexCalls : List (String × String × String)
deriving DecidableEq

/-- Modelled from the spec (section 4.2): the missing document-processor
Lambda's `Ingest(userID, tenantID, fileName, content)`.
1. Reject empty content or an unsupported extension with
   `UnsupportedFormat` before any side effect.
2. Compute the fingerprint of (user, tenant, content).
3. Dedup lookup; on an `Indexed` hit return `(true, existing chunk count)`
   without re-indexing.
4. Otherwise persist the content and call `KnowledgeStore.Index`
   (modelled by `ks`, returning `some chunkCount` on success and `none`
   on failure); record an `Indexed` or `Failed` row accordingly. -/
def ingest (ks : String → String → String → Option Nat) (now : Nat)
    (st : PipelineState) (u t fn c : String) :
    Except IngestError IngestOutcome × PipelineState :=
  if decide (c = "") || !hasSupportedExtension fn then
    (Except.error IngestError.unsupportedFormat, st)
  else
    match lookup st.registry ⟨u, t, c⟩ with
    | some r => (Except.ok ⟨true, r.chunkCount⟩, st)
    | none =>
      let path := storagePath u t fn
      let st1 : PipelineState :=
        { st with storage := (path, c) :: st.storage,
                  indexCalls := (t, path, c) :: st.indexCalls }
      match ks t path c with
      | some n =>
        (Except.ok ⟨false, n⟩,
         { st1 with registry := put ⟨u, t, ⟨u, t, c⟩, path, fn, now, n, Status.indexed⟩ st1.registry })
      | none =>
        (Except.error IngestError.indexingFailed,
         { st1 with registry := put ⟨u, t, ⟨u, t, c⟩, path, fn, now, 0, Status.failed⟩ st1.registry })

/-- Errors surfaced by the tenant reset coordinator (spec section 4.4). -/
inductive ResetError where
  | resetFailed
deriving DecidableEq

/-- Modelled from the spec (section 4.4): `Reset(tenantID)` in the missing
document-processor Lambda. Step 1 calls `KnowledgeStore.ResetTenant`
(its outcome modelled by `ksReset`); if it fails the coordinator aborts
before step 2 and surfaces `ResetFailed`, leaving the registry intact.
If step 1 succeeds, step 2 runs `Registry.DeleteAllForTenant`. -/
def reset (ksReset : Except String Unit) (st : PipelineState) (t : String) :
    Except ResetError Unit × PipelineState :=
  match ksReset with
  | Except.error _ => (Except.error ResetError.resetFailed, st)
  | Except.ok _ =>
      (Except.ok (), { st with registry := deleteAllForTenant t st.registry })

/-- A unit of vector-retrieved evidence (spec section 3); the similarity
score is abstracted as an integer. -/
structure Chunk where
  text : String
  sourceId : String
  score : Int
  charCount : Nat
deriving DecidableEq

/-- A knowledge-graph node returned by graph search (spec section 3). -/
structure GraphNode where
  id : String
  name : String
  type : String
deriving DecidableEq

/-- A knowledge-graph edge (the UI's `QueryGraphLink`): source node id,
target node id and relation type (spec section 3). -/
structure GraphEdge where
  source : String
  target : String
  type : String
deriving DecidableEq

/-- The per-request result of the dual-retrieval orchestrator
(spec section 3): both branches' answers, provenance and latencies. -/
structure QueryResult where
  vectorAnswer : String
  vectorChunks : List Chunk
  vectorLatencyMs : Nat
  graphAnswer : String
  graphNodes : List GraphNode
  graphEdges : List GraphEdge
  graphLatencyMs : Nat
deriving DecidableEq

/-- Successful outcome of the vector-search branch. -/
structure VectorSuccess where
  answer : String
  chunks : List Chunk
deriving DecidableEq

/-- Successful outcome of the graph-search branch. -/
structure GraphSuccess where
  answer : String
  nodes : List GraphNode
  edges : List GraphEdge
deriving DecidableEq

/-- Modelled from the spec (section 4.3): the empty-result sentinel a
failed branch's answer degrades to. -/
def emptySentinel : String := ""

/-- Modelled from the spec (section 4.3): the missing query-handler
Lambda's `Query` orchestrator, expressed over the two branches' joined
outcomes. Each branch outcome is a success or an error; a failed branch
contributes the empty-result sentinel with zero sources, and the response
is composed only from both outcomes together with both measured
latencies (joint wait, no first-wins short-circuit, no cancellation). -/
def query (vres : Except String VectorSuccess)
    (gres : Except String GraphSuccess) (vms gms : Nat) : QueryResult :=
  { vectorAnswer :=
      match vres with
      | Except.ok v => v.answer
      | Except.error _ => emptySentinel,
    vectorChunks :=
      match vres with
      | Except.ok v => v.chunks
      | Except.error _ => [],
    vectorLatencyMs := vms,
    graphAnswer :=
      match gres with
      | Except.ok g => g.answer
      | Except.error _ => emptySentinel,
    graphNodes :=
      match gres with
      | Except.ok g => g.nodes
      | Except.error _ => [],
    graphEdges :=
      match gres with
      | Except.ok g => g.edges
      | Except.error _ => [],
    graphLatencyMs := gms }

/-- Modelled from the spec (sections 2 and 3): the Knowledge Store's
graph/vector state, partitioned by TenantID — every piece of indexed
content lives in exactly one tenant's partition. -/
def StoreState : Type := String → List String

/-- Modelled from the spec: `KnowledgeStore.Index(tenant, doc)` adds the
document to that tenant's partition only. -/
def indexDoc (s : StoreState) (t doc : String) : StoreState :=
  fun t2 => if t2 = t then doc :: s t2 else s t2

/-- Modelled from the spec: `VectorSearch(tenant, query, k)` retrieves
only from the tenant's own partition; the similarity-search algorithm
itself is opaque, abstracted as `vf`. -/
def vectorSearchKS (vf : List String → String → List Chunk)
    (s : StoreState) (t q : String) : List Chunk :=
  vf (s t) q

/-- Modelled from the spec: `GraphSearch(tenant, query)` retrieves only
from the tenant's own partition; the traversal algorithm is opaque,
abstracted as `gf`. -/
def graphSearchKS (gf : List String → String → List GraphNode × List GraphEdge)
    (s : StoreState) (t q : String) : List GraphNode × List GraphEdge :=
  gf (s t) q

/-- Upload status of an entry in the session upload history
(`UploadedFile.status` in `GraphRAGChat.tsx`). -/
inductive UploadStatus where
  | uploading
  | processing
  | completed
  | uploadError
deriving DecidableEq

/-- An entry of the React `files` state (`UploadedFile` in
`GraphRAGChat.tsx`); the timestamp is a Nat clock value and the
formatted size is kept as the already-formatted string. -/
structure UploadedFile where
  name : String
  size : String
  status : UploadStatus
  timestamp : Nat
  chunksCreated : Option Nat
deriving DecidableEq

/-- Role of a chat message (`Message.role` in `GraphRAGChat.tsx`). -/
inductive Role where
  | user
  | assistant
deriving DecidableEq

/-- A chat message (`Message` in `GraphRAGChat.tsx`); the optional
fields mirror `sourcesCount?` and `timeMs?`. -/
structure Message where
  role : Role
  content : String
  sourcesCount : Option Nat
  timeMs : Option Nat
deriving DecidableEq

/-- The component state of `GraphRAGChat` touched by `sendMessage`,
`handleFileSelect` and `handleResetGraph`: the two chat columns, the
input box, the upload history, the status flags and the captured
per-query provenance (`lastVectorChunks`, `lastGraphNodes`,
`lastGraphLinks`). `fileInputValue` models the DOM file input's
`value`. -/
structure ChatState where
  graphMessages : List Message
  vectorMessages : List Message
  input : String
  loading : Bool
  errorMsg : Option String
  uploadSuccess : Option String
  files : List UploadedFile
  uploading : Bool
  fileInputValue : String
  apiUrl : String
  lastVectorChunks : List Chunk
  lastGraphNodes : List GraphNode
  lastGraphLinks : List GraphEdge
deriving DecidableEq

/-- The parsed JSON body of a successful `/query` response as read by
`sendMessage` in `GraphRAGChat.tsx`; every field the handler accesses
with `?.` or `||` defaults is optional. -/
structure QueryResponseData where
  graphragResponse : Option String
  vectorResponse : Option String
  graphragSources : Option (List String)
  vectorSources : Option (List String)
  graphragTimeMs : Option Nat
  vectorTimeMs : Option Nat
  vectorChunks : Option (List Chunk)
  graphragGraphNodes : Option (List GraphNode)
  graphragGraphLinks : Option (List GraphEdge)
deriving DecidableEq

/-- JavaScript's `!input.trim()` guard: true iff the string is all
whitespace (so its trim is empty/falsy). -/
def isBlank (s : String) : Bool :=
  s.data.all (fun ch => ch.isWhitespace)

/-- The state update `sendMessage` performs before issuing the query
(`GraphRAGChat.tsx:357-366`): append the user message to both columns,
clear the input, set `loading`, clear the error, and clear the three
previously captured provenance lists. -/
def sendMessageBegin (st : ChatState) : ChatState :=
  let userMessage : Message := ⟨Role.user, st.input, none, none⟩
  { st with graphMessages := st.graphMessages ++ [userMessage],
            vectorMessages := st.vectorMessages ++ [userMessage],
            input := "",
            loading := true,
            errorMsg := none,
            lastVectorChunks := [],
            lastGraphNodes := [],
            lastGraphLinks := [] }

/-- The state update `sendMessage` performs once the query settles
(`GraphRAGChat.tsx:368-404`): on success append both assistant
messages and capture the response's provenance (with `|| []`
defaults); on failure set the error message. `setLoading(false)` runs
in the `finally` block, so in both branches. -/
def sendMessageComplete (st : ChatState)
    (outcome : Except String QueryResponseData) : ChatState :=
  match outcome with
  | Except.ok data =>
    { st with
        graphMessages := st.graphMessages ++
          [⟨Role.assistant, data.graphragResponse.getD "No response",
            some (data.graphragSources.getD []).length, data.graphragTimeMs⟩],
        vectorMessages := st.vectorMessages ++
          [⟨Role.assistant, data.vectorResponse.getD "No response",
            some (data.vectorSources.getD []).length, data.vectorTimeMs⟩],
        lastVectorChunks := data.vectorChunks.getD [],
        lastGraphNodes := data.graphragGraphNodes.getD [],
        lastGraphLinks := data.graphragGraphLinks.getD [],
        loading := false }
  | Except.error _ =>
    { st with
        errorMsg := some "Failed to get response. Check that the backend is configured correctly.",
        loading := false }

/-- `sendMessage` from `GraphRAGChat.tsx:354-405`, with the settled
fetch outcome passed explicitly: the guard
`if (!input.trim() || !apiUrl) return` aborts without side effects,
otherwise the pre-request update runs and then the completion
update. -/
def sendMessage (st : ChatState)
    (outcome : Except String QueryResponseData) : ChatState :=
  if isBlank st.input || decide (st.apiUrl = "") then st
  else sendMessageComplete (sendMessageBegin st) outcome

/-- The settled outcome of one file's upload request inside
`handleFileSelect`: a parsed success body (`chunks_created`,
`already_processed`) or a thrown error message. -/
inductive UploadOutcome where
  | succeeded (chunksCreated : Option Nat) (alreadyProcessed : Bool)
  | failed (msg : String)
deriving DecidableEq

/-- One file of the selection passed to `handleFileSelect`: its name,
its formatted size (as produced by `formatFileSize`) and the settled
outcome of its upload request. -/
structure SelectedFile where
  name : String
  size : String
  outcome : UploadOutcome
deriving DecidableEq

/-- One iteration of the upload loop in `handleFileSelect`
(`GraphRAGChat.tsx:415-466`): prepend a new `uploading` entry, mark
entries of that name `processing`, then on success mark them
`completed` with `chunksCreated` and set the success banner, and on
failure mark them `error` and set the error banner. All entry updates
match on `f.name === file.name`, exactly as the source does. -/
def processOneFile (now : Nat) (st : ChatState) (f : SelectedFile) : ChatState :=
  let st1 : ChatState :=
    { st with files := ⟨f.name, f.size, UploadStatus.uploading, now, none⟩ :: st.files }
  let st2 : ChatState :=
    { st1 with files := st1.files.map (fun x =>
        if x.name = f.name then { x with status := UploadStatus.processing } else x) }
  match f.outcome with
  | UploadOutcome.succeeded chunks already =>
    { st2 with
        files := st2.files.map (fun x =>
          if x.name = f.name then
            { x with status := UploadStatus.completed, chunksCreated := chunks }
          else x),
        uploadSuccess := some (if already then
            f.name ++ " was already processed, skipping re-indexing"
          else
            f.name ++ " uploaded and indexed successfully!") }
  | UploadOutcome.failed m =>
    { st2 with
        files := st2.files.map (fun x =>
          if x.name = f.name then { x with status := UploadStatus.uploadError } else x),
        errorMsg := some ("Failed to upload " ++ f.name ++ ": " ++ m) }

/-- `handleFileSelect` from `GraphRAGChat.tsx:407-470`, with each
file's settled upload outcome passed explicitly: empty selections
return early; otherwise `uploading` is set and the banners cleared,
every selected file is processed in order by the loop, and after the
loop `uploading` is cleared and the file input value reset —
unconditionally. -/
def handleFileSelect (now : Nat) (st : ChatState)
    (selection : List SelectedFile) : ChatState :=
  if selection.isEmpty then st
  else
    let st1 : ChatState :=
      { st with uploading := true, errorMsg := none, uploadSuccess := none }
    let st2 := List.foldl (processOneFile now) st1 selection
    { st2 with uploading := false, fileInputValue := "" }

/-- The session-history entry a selected file ends up with after its
loop iteration: `completed` with the reported chunk count on success,
`error` on failure. -/
def finalEntry (now : Nat) (f : SelectedFile) : UploadedFile :=
  match f.outcome with
  | UploadOutcome.succeeded chunks _ =>
      ⟨f.name, f.size, UploadStatus.completed, now, chunks⟩
  | UploadOutcome.failed _ =>
      ⟨f.name, f.size, UploadStatus.uploadError, now, none⟩

/-- The registry invariant that every row's fingerprint carries the
row's own tenant; rows written by `ingest` satisfy it by
construction. -/
def fingerprintConsistent (reg : List IngestionRecord) : Prop :=
  ∀ r ∈ reg, r.md5.tenantId = r.tenantId

/-- Concrete registry row fixture: content "hello" indexed for user "u"
under tenant "t" with 3 chunks. -/
def fixtureRecord : IngestionRecord :=
  ⟨"u", "t", ⟨"u", "t", "hello"⟩, storagePath "u" "t" "a.txt", "a.txt", 0, 3,
   Status.indexed⟩

/-- Concrete pipeline-state fixture holding `fixtureRecord` and its
storage write and index call. -/
def fixturePipelineState : PipelineState :=
  ⟨[fixtureRecord], [(storagePath "u" "t" "a.txt", "hello")],
   [("t", storagePath "u" "t" "a.txt", "hello")]⟩

/-- Concrete chat-state fixture used to exercise the UI handlers on a
state that already holds provenance from an earlier query. -/
def fixtureChatState : ChatState :=
  { graphMessages := [],
    vectorMessages := [],
    input := "who partners with B?",
    loading := false,
    errorMsg := none,
    uploadSuccess := none,
    files := [],
    uploading := false,
    fileInputValue := "old",
    apiUrl := "https://query.example",
    lastVectorChunks := [⟨"stale chunk", "old.txt", 1, 11⟩],
    lastGraphNodes := [⟨"n1", "Stale", "topic"⟩],
    lastGraphLinks := [⟨"n1", "n2", "mentions"⟩] }

/-- Concrete two-file selection fixture: the first upload succeeds, the
second fails. -/
def fixtureSelection : List SelectedFile :=
  [⟨"a.txt", "1.0 KB", UploadOutcome.succeeded (some 2) false⟩,
   ⟨"b.md", "2.0 KB", UploadOutcome.failed "boom"⟩]

end GraphRAG

namespace GraphRAG

theorem lookup_eq_none_iff (reg : List IngestionRecord) (fp : Fingerprint) :
    lookup reg fp = none ↔
      ∀ r ∈ reg, ¬(r.md5 = fp ∧ r.status = Status.indexed) := by
  unfold lookup
  rw [List.find?_eq_none]
  simp

theorem ingest_guard_false {c fn : String} (hc : c ≠ "")
    (hfn : hasSupportedExtension fn = true) :
    (decide (c = "") || !hasSupportedExtension fn) = false := by
  simp [hc, hfn]

theorem ingest_hit (ks : String → String → String → Option Nat) (now : Nat)
    (st : PipelineState) (u t fn c : String) (r : IngestionRecord)
    (hc : c ≠ "") (hfn : hasSupportedExtension fn = true)
    (hl : lookup st.registry ⟨u, t, c⟩ = some r) :
    ingest ks now st u t fn c = (Except.ok ⟨true, r.chunkCount⟩, st) := by
  unfold ingest
  rw [ingest_guard_false hc hfn, hl]
  simp

theorem ingest_fresh_success (ks : String → String → String → Option Nat)
    (now : Nat) (st : PipelineState) (u t fn c : String) (n : Nat)
    (hc : c ≠ "") (hfn : hasSupportedExtension fn = true)
    (hl : lookup st.registry ⟨u, t, c⟩ = none)
    (hks : ks t (storagePath u t fn) c = some n) :
    ingest ks now st u t fn c =
      (Except.ok ⟨false, n⟩,
       { registry := put ⟨u, t, ⟨u, t, c⟩, storagePath u t fn, fn, now, n,
                          Status.indexed⟩ st.registry,
         storage := (storagePath u t fn, c) :: st.storage,
         indexCalls := (t, storagePath u t fn, c) :: st.indexCalls }) := by
  unfold ingest
  rw [ingest_guard_false hc hfn, hl]
  simp [hks]

/-- C8: `Ingest` rejects empty content or a file name whose extension is
neither `.txt` nor `.md` with `UnsupportedFormat`, returning the pipeline
state completely unchanged — no storage write, no registry write, and no
Knowledge Store `Index` call. -/
theorem ingestRejectsUnsupportedFormat
    (ks : String → String → String → Option Nat) (now : Nat)
    (st : PipelineState) (u t fn c : String)
    (h : c = "" ∨ hasSupportedExtension fn = false) :
    ingest ks now st u t fn c = (Except.error IngestError.unsupportedFormat, st) := by
  unfold ingest
  rcases h with h | h <;> simp [h]

theorem ingestRejectsUnsupportedFormat_witness :
    (("" : String) = "" ∨ hasSupportedExtension "a.txt" = false) ∧
    ("q" = "" ∨ hasSupportedExtension "notes.pdf" = false) ∧
    ingest (fun _ _ _ => some 3) 0 ⟨[], [], []⟩ "u" "t" "a.txt" ""
      = (Except.error IngestError.unsupportedFormat, ⟨[], [], []⟩) ∧
    ingest (fun _ _ _ => some 3) 0 ⟨[], [], []⟩ "u" "t" "notes.pdf" "q"
      = (Except.error IngestError.unsupportedFormat, ⟨[], [], []⟩) :=
  ⟨Or.inl rfl, Or.inr (by decide),
   ingestRejectsUnsupportedFormat _ 0 _ "u" "t" "a.txt" "" (Or.inl rfl),
   ingestRejectsUnsupportedFormat _ 0 _ "u" "t" "notes.pdf" "q" (Or.inr (by decide))⟩

/-- C5: the tenant reset coordinator is ordered and atomic on Knowledge
Store failure — if `ResetTenant` fails, `reset` surfaces `ResetFailed`
and returns the state untouched, so `DeleteAllForTenant` never runs and
every registry row is unchanged. -/
theorem resetAbortsOnKnowledgeStoreFailure (e : String)
    (st : PipelineState) (t : String) :
    reset (Except.error e) st t = (Except.error ResetError.resetFailed, st) := rfl

/-- C3: the two retrieval branches of `query` are fault-isolated — when
exactly one branch fails, the result still carries the surviving
branch's answer and provenance intact while the failed branch degrades
to the empty-result sentinel with zero sources, and the whole query
still returns a `QueryResult`. -/
theorem queryFaultIsolation (vres : Except String VectorSuccess)
    (gres : Except String GraphSuccess) (vms gms : Nat) :
    (∀ v e, vres = Except.ok v → gres = Except.error e →
      query vres gres vms gms =
        { vectorAnswer := v.answer, vectorChunks := v.chunks,
          vectorLatencyMs := vms, graphAnswer := emptySentinel,
          graphNodes := [], graphEdges := [], graphLatencyMs := gms }) ∧
    (∀ g e, vres = Except.error e → gres = Except.ok g →
      query vres gres vms gms =
        { vectorAnswer := emptySentinel, vectorChunks := [],
          vectorLatencyMs := vms, graphAnswer := g.answer,
          graphNodes := g.nodes, graphEdges := g.edges,
          graphLatencyMs := gms }) := by
  constructor
  · rintro v e rfl rfl
    rfl
  · rintro g e rfl rfl
    rfl

theorem queryFaultIsolation_witness :
    query (Except.ok ⟨"vector answer", [⟨"c", "s", 1, 1⟩]⟩)
        (Except.error "graph branch down") 12 34 =
      { vectorAnswer := "vector answer", vectorChunks := [⟨"c", "s", 1, 1⟩],
        vectorLatencyMs := 12, graphAnswer := emptySentinel,
        graphNodes := [], graphEdges := [], graphLatencyMs := 34 } ∧
    query (Except.error "vector branch down")
        (Except.ok ⟨"graph answer", [⟨"n", "N", "topic"⟩], []⟩) 5 6 =
      { vectorAnswer := emptySentinel, vectorChunks := [],
        vectorLatencyMs := 5, graphAnswer := "graph answer",
        graphNodes := [⟨"n", "N", "topic"⟩], graphEdges := [],
        graphLatencyMs := 6 } :=
  ⟨(queryFaultIsolation _ _ 12 34).1 _ "graph branch down" rfl rfl,
   (queryFaultIsolation _ _ 5 6).2 _ "vector branch down" rfl rfl⟩

/-- C4: `query` composes its response from both settled branch outcomes
simultaneously — for every invocation the result carries the vector
branch's answer and chunks (success data or the sentinel with zero
sources) together with the graph branch's answer, nodes and edges
(success data or the sentinel), plus both recorded latencies. -/
theorem queryJointWait (vres : Except String VectorSuccess)
    (gres : Except String GraphSuccess) (vms gms : Nat) :
    ((∃ v, vres = Except.ok v ∧
        (query vres gres vms gms).vectorAnswer = v.answer ∧
        (query vres gres vms gms).vectorChunks = v.chunks) ∨
     (∃ e, vres = Except.error e ∧
        (query vres gres vms gms).vectorAnswer = emptySentinel ∧
        (query vres gres vms gms).vectorChunks = [])) ∧
    ((∃ g, gres = Except.ok g ∧
        (query vres gres vms gms).graphAnswer = g.answer ∧
        (query vres gres vms gms).graphNodes = g.nodes ∧
        (query vres gres vms gms).graphEdges = g.edges) ∨
     (∃ e, gres = Except.error e ∧
        (query vres gres vms gms).graphAnswer = emptySentinel ∧
        (query vres gres vms gms).graphNodes = [] ∧
        (query vres gres vms gms).graphEdges = [])) ∧
    (query vres gres vms gms).vectorLatencyMs = vms ∧
    (query vres gres vms gms).graphLatencyMs = gms := by
  cases vres <;> cases gres <;> simp [query]

/-- C7: tenant isolation of retrieval — indexing content under tenant A
changes neither the vector-search nor the graph-search result of any
query issued for a different tenant B, whatever opaque retrieval
algorithms run inside the Knowledge Store. -/
theorem tenantIsolationOfRetrieval
    (vf : List String → String → List Chunk)
    (gf : List String → String → List GraphNode × List GraphEdge)
    (s : StoreState) (A B d q : String) (hAB : A ≠ B) :
    vectorSearchKS vf (indexDoc s A d) B q = vectorSearchKS vf s B q ∧
    graphSearchKS gf (indexDoc s A d) B q = graphSearchKS gf s B q := by
  have hBA : B ≠ A := Ne.symm hAB
  constructor <;> simp [vectorSearchKS, graphSearchKS, indexDoc, hBA]

theorem tenantIsolationOfRetrieval_witness :
    vectorSearchKS (fun docs q => docs.map (fun d => ⟨d, q, 0, 0⟩))
        (indexDoc (fun _ => []) "tenantA" "secret doc") "tenantB" "q" =
      vectorSearchKS (fun docs q => docs.map (fun d => ⟨d, q, 0, 0⟩))
        (fun _ => []) "tenantB" "q" ∧
    graphSearchKS (fun docs _ => (docs.map (fun d => ⟨d, d, "source"⟩), []))
        (indexDoc (fun _ => []) "tenantA" "secret doc") "tenantB" "q" =
      graphSearchKS (fun docs _ => (docs.map (fun d => ⟨d, d, "source"⟩), []))
        (fun _ => []) "tenantB" "q" :=
  tenantIsolationOfRetrieval _ _ _ "tenantA" "tenantB" "secret doc" "q" (by decide)

theorem storagePath_tenant_inj (u fn : String) {t1 t2 : String}
    (h : storagePath u t1 fn = storagePath u t2 fn) : t1 = t2 := by
  unfold storagePath at h
  have hd := congrArg String.data h
  simp only [String.data_append, List.append_assoc] at hd
  have h1 := List.append_cancel_left hd
  have h2 := List.append_cancel_left h1
  have h3 := List.append_cancel_left h2
  rw [← List.append_assoc, ← List.append_assoc] at h3
  have h4 := List.append_cancel_right h3
  exact String.ext (List.append_cancel_right h4)

theorem countP_put_fresh (r0 : IngestionRecord) (reg : List IngestionRecord)
    (p : IngestionRecord → Bool) (hrec : p r0 = true)
    (hreg : ∀ r ∈ reg, p r = false) :
    List.countP p (put r0 reg) = 1 := by
  unfold put
  rw [List.countP_cons, hrec]
  rw [List.countP_eq_zero.mpr (fun r hr => by
    rw [hreg r (List.mem_filter.mp hr).1]
    simp)]
  simp

/-- C1: ingestion is idempotent per (user, tenant, content) — after a
first successful `ingest` of fresh content, a second `ingest` of the
identical content returns `alreadyProcessed = true` with the first
call's chunk count, leaves the whole pipeline state (registry, storage,
index-call log) untouched, and the registry holds exactly one
`Indexed` row for that (tenant, fingerprint). -/
theorem ingestIdempotentPerContent
    (ks : String → String → String → Option Nat) (now1 now2 : Nat)
    (st : PipelineState) (u t fn c : String) (n : Nat)
    (hc : c ≠ "") (hfn : hasSupportedExtension fn = true)
    (hl : lookup st.registry ⟨u, t, c⟩ = none)
    (hks : ks t (storagePath u t fn) c = some n) :
    (ingest ks now1 st u t fn c).1 = Except.ok ⟨false, n⟩ ∧
    (ingest ks now2 (ingest ks now1 st u t fn c).2 u t fn c).1
        = Except.ok ⟨true, n⟩ ∧
    (ingest ks now2 (ingest ks now1 st u t fn c).2 u t fn c).2
        = (ingest ks now1 st u t fn c).2 ∧
    List.countP
        (fun r => decide (r.tenantId = t ∧ r.md5 = ⟨u, t, c⟩ ∧ r.status = Status.indexed))
        (ingest ks now1 st u t fn c).2.registry = 1 := by
  have h1 := ingest_fresh_success ks now1 st u t fn c n hc hfn hl hks
  have hl2 : lookup (ingest ks now1 st u t fn c).2.registry ⟨u, t, c⟩
      = some ⟨u, t, ⟨u, t, c⟩, storagePath u t fn, fn, now1, n, Status.indexed⟩ := by
    rw [h1]
    unfold lookup put
    simp
  have h2 := ingest_hit ks now2 (ingest ks now1 st u t fn c).2 u t fn c
    ⟨u, t, ⟨u, t, c⟩, storagePath u t fn, fn, now1, n, Status.indexed⟩ hc hfn hl2
  refine ⟨by rw [h1], by rw [h2], by rw [h2], ?_⟩
  rw [h1]
  refine countP_put_fresh _ st.registry _ (by simp) ?_
  intro r hr
  have hnone := (lookup_eq_none_iff st.registry ⟨u, t, c⟩).mp hl r hr
  simp only [decide_eq_false_iff_not]
  intro hcontra
  exact hnone ⟨hcontra.2.1, hcontra.2.2⟩

theorem ingestIdempotentPerContent_witness :
    (ingest (fun _ _ _ => some 3) 0 ⟨[], [], []⟩ "u" "t" "a.txt" "hello").1
        = Except.ok ⟨false, 3⟩ ∧
    (ingest (fun _ _ _ => some 3) 1
        (ingest (fun _ _ _ => some 3) 0 ⟨[], [], []⟩ "u" "t" "a.txt" "hello").2
        "u" "t" "a.txt" "hello").1 = Except.ok ⟨true, 3⟩ ∧
    (ingest (fun _ _ _ => some 3) 1
        (ingest (fun _ _ _ => some 3) 0 ⟨[], [], []⟩ "u" "t" "a.txt" "hello").2
        "u" "t" "a.txt" "hello").2
        = (ingest (fun _ _ _ => some 3) 0 ⟨[], [], []⟩ "u" "t" "a.txt" "hello").2 ∧
    List.countP
        (fun r => decide (r.tenantId = "t" ∧ r.md5 = ⟨"u", "t", "hello"⟩ ∧ r.status = Status.indexed))
        (ingest (fun _ _ _ => some 3) 0 ⟨[], [], []⟩ "u" "t" "a.txt" "hello").2.registry = 1 :=
  ingestIdempotentPerContent (fun _ _ _ => some 3) 0 1 ⟨[], [], []⟩
    "u" "t" "a.txt" "hello" 3 (by decide) (by decide) rfl rfl

/-- C2: the fingerprint covers (user, tenant, content), so the same user
uploading byte-identical content under two different tenants gets two
distinct fingerprints, both uploads index independently (the second is
not dedup-suppressed by the first), two registry rows result, and the
fingerprint-only dedup lookup for either tenant returns that tenant's
own row, never the other tenant's. -/
theorem fingerprintTenantScoping
    (ks : String → String → String → Option Nat) (now1 now2 : Nat)
    (st : PipelineState) (u t1 t2 fn c : String) (n1 n2 : Nat)
    (ht : t1 ≠ t2) (hc : c ≠ "") (hfn : hasSupportedExtension fn = true)
    (h1 : lookup st.registry ⟨u, t1, c⟩ = none)
    (h2 : lookup st.registry ⟨u, t2, c⟩ = none)
    (hks1 : ks t1 (storagePath u t1 fn) c = some n1)
    (hks2 : ks t2 (storagePath u t2 fn) c = some n2) :
    ((⟨u, t1, c⟩ : Fingerprint) ≠ ⟨u, t2, c⟩) ∧
    (ingest ks now1 st u t1 fn c).1 = Except.ok ⟨false, n1⟩ ∧
    (ingest ks now2 (ingest ks now1 st u t1 fn c).2 u t2 fn c).1
        = Except.ok ⟨false, n2⟩ ∧
    (∃ r1, lookup (ingest ks now2 (ingest ks now1 st u t1 fn c).2 u t2 fn c).2.registry
        ⟨u, t1, c⟩ = some r1 ∧ r1.tenantId = t1) ∧
    (∃ r2, lookup (ingest ks now2 (ingest ks now1 st u t1 fn c).2 u t2 fn c).2.registry
        ⟨u, t2, c⟩ = some r2 ∧ r2.tenantId = t2) := by
  have hfp : (⟨u, t1, c⟩ : Fingerprint) ≠ ⟨u, t2, c⟩ := by
    simp [Fingerprint.mk.injEq, ht]
  have hpath : storagePath u t1 fn ≠ storagePath u t2 fn :=
    fun h => ht (storagePath_tenant_inj u fn h)
  have hA := ingest_fresh_success ks now1 st u t1 fn c n1 hc hfn h1 hks1
  have hreg1 : (ingest ks now1 st u t1 fn c).2.registry
      = put ⟨u, t1, ⟨u, t1, c⟩, storagePath u t1 fn, fn, now1, n1, Status.indexed⟩
          st.registry := by
    rw [hA]
  have hl2 : lookup (ingest ks now1 st u t1 fn c).2.registry ⟨u, t2, c⟩ = none := by
    rw [hreg1, lookup_eq_none_iff]
    intro r hr
    unfold put at hr
    rcases List.mem_cons.mp hr with rfl | hmem
    · simp [Fingerprint.mk.injEq, ht]
    · exact (lookup_eq_none_iff st.registry ⟨u, t2, c⟩).mp h2 r
        (List.mem_filter.mp hmem).1
  have hB := ingest_fresh_success ks now2 (ingest ks now1 st u t1 fn c).2
    u t2 fn c n2 hc hfn hl2 hks2
  have hreg2 : (ingest ks now2 (ingest ks now1 st u t1 fn c).2 u t2 fn c).2.registry
      = put ⟨u, t2, ⟨u, t2, c⟩, storagePath u t2 fn, fn, now2, n2, Status.indexed⟩
          (put ⟨u, t1, ⟨u, t1, c⟩, storagePath u t1 fn, fn, now1, n1, Status.indexed⟩
            st.registry) := by
    rw [hB, hreg1]
  refine ⟨hfp, by rw [hA], by rw [hB], ?_, ?_⟩
  · refine ⟨⟨u, t1, ⟨u, t1, c⟩, storagePath u t1 fn, fn, now1, n1, Status.indexed⟩, ?_, rfl⟩
    rw [hreg2]
    unfold lookup put
    simp only [List.find?, List.filter]
    simp [hfp.symm, hpath]
  · refine ⟨⟨u, t2, ⟨u, t2, c⟩, storagePath u t2 fn, fn, now2, n2, Status.indexed⟩, ?_, rfl⟩
    rw [hreg2]
    unfold lookup put
    simp [List.find?]

theorem ingest_preserves_fingerprintConsistent
    (ks : String → String → String → Option Nat) (now : Nat)
    (st : PipelineState) (u t fn c : String)
    (hcons : fingerprintConsistent st.registry) :
    fingerprintConsistent (ingest ks now st u t fn c).2.registry := by
  unfold ingest
  split
  · exact hcons
  · split
    · exact hcons
    · dsimp only
      cases hksv : ks t (storagePath u t fn) c with
      | some n =>
        intro r hr
        unfold put at hr
        rcases List.mem_cons.mp hr with rfl | hmem
        · rfl
        · exact hcons r (List.mem_filter.mp hmem).1
      | none =>
        intro r hr
        unfold put at hr
        rcases List.mem_cons.mp hr with rfl | hmem
        · rfl
        · exact hcons r (List.mem_filter.mp hmem).1

theorem reset_preserves_fingerprintConsistent
    (ksReset : Except String Unit) (st : PipelineState) (t : String)
    (hcons : fingerprintConsistent st.registry) :
    fingerprintConsistent (reset ksReset st t).2.registry := by
  unfold reset
  split
  · exact hcons
  · intro r hr
    exact hcons r (List.mem_filter.mp hr).1

/-- C6: reset completeness — when `ResetTenant` succeeds, `reset` deletes
every registry row of that tenant, so `listByUser` no longer returns any
row scoped to the tenant, and a subsequent `ingest` of content that was
indexed before the reset finds no dedup hit: it re-indexes and returns
`alreadyProcessed = false` instead of being suppressed by a residual
row. -/
theorem resetCompleteness
    (ks : String → String → String → Option Nat) (now : Nat)
    (st : PipelineState) (u t fn c : String) (n : Nat)
    (hcons : fingerprintConsistent st.registry)
    (hc : c ≠ "") (hfn : hasSupportedExtension fn = true)
    (_hprev : ∃ r ∈ st.registry, r.md5 = ⟨u, t, c⟩ ∧ r.status = Status.indexed)
    (hks : ks t (storagePath u t fn) c = some n) :
    (reset (Except.ok ()) st t).1 = Except.ok () ∧
    (∀ r ∈ listByUser u (reset (Except.ok ()) st t).2.registry, r.tenantId ≠ t) ∧
    (ingest ks now (reset (Except.ok ()) st t).2 u t fn c).1
        = Except.ok ⟨false, n⟩ := by
  have hreg : (reset (Except.ok ()) st t).2.registry
      = deleteAllForTenant t st.registry := rfl
  refine ⟨rfl, ?_, ?_⟩
  · intro r hr
    rw [hreg] at hr
    have hm := List.mem_filter.mp hr
    have hm2 := List.mem_filter.mp hm.1
    simpa using hm2.2
  · have hl : lookup (reset (Except.ok ()) st t).2.registry ⟨u, t, c⟩ = none := by
      rw [hreg, lookup_eq_none_iff]
      intro r hr hco
      have hm := List.mem_filter.mp hr
      have hten : r.md5.tenantId = r.tenantId := hcons r hm.1
      rw [hco.1] at hten
      have hne : ¬(r.tenantId = t) := by simpa using hm.2
      exact hne hten.symm
    rw [ingest_fresh_success ks now _ u t fn c n hc hfn hl hks]

theorem resetCompleteness_witness :
    (reset (Except.ok ()) fixturePipelineState "t").1 = Except.ok () ∧
    (∀ r ∈ listByUser "u" (reset (Except.ok ()) fixturePipelineState "t").2.registry,
       r.tenantId ≠ "t") ∧
    (ingest (fun _ _ _ => some 4) 1 (reset (Except.ok ()) fixturePipelineState "t").2
       "u" "t" "a.txt" "hello").1 = Except.ok ⟨false, 4⟩ :=
  resetCompleteness (fun _ _ _ => some 4) 1 fixturePipelineState "u" "t" "a.txt"
    "hello" 4
    (show ∀ r ∈ fixturePipelineState.registry, r.md5.tenantId = r.tenantId by decide)
    (by decide) (by decide)
    (show ∃ r ∈ fixturePipelineState.registry,
        r.md5 = ⟨"u", "t", "hello"⟩ ∧ r.status = Status.indexed by decide)
    rfl

theorem fingerprintTenantScoping_witness :
    ((⟨"u", "t1", "hello"⟩ : Fingerprint) ≠ ⟨"u", "t2", "hello"⟩) ∧
    (ingest (fun t _ _ => if t = "t1" then some 2 else some 5) 0 ⟨[], [], []⟩
        "u" "t1" "a.txt" "hello").1 = Except.ok ⟨false, 2⟩ ∧
    (ingest (fun t _ _ => if t = "t1" then some 2 else some 5) 1
        (ingest (fun t _ _ => if t = "t1" then some 2 else some 5) 0 ⟨[], [], []⟩
          "u" "t1" "a.txt" "hello").2 "u" "t2" "a.txt" "hello").1
        = Except.ok ⟨false, 5⟩ ∧
    (∃ r1, lookup (ingest (fun t _ _ => if t = "t1" then some 2 else some 5) 1
        (ingest (fun t _ _ => if t = "t1" then some 2 else some 5) 0 ⟨[], [], []⟩
          "u" "t1" "a.txt" "hello").2 "u" "t2" "a.txt" "hello").2.registry
        ⟨"u", "t1", "hello"⟩ = some r1 ∧ r1.tenantId = "t1") ∧
    (∃ r2, lookup (ingest (fun t _ _ => if t = "t1" then some 2 else some 5) 1
        (ingest (fun t _ _ => if t = "t1" then some 2 else some 5) 0 ⟨[], [], []⟩
          "u" "t1" "a.txt" "hello").2 "u" "t2" "a.txt" "hello").2.registry
        ⟨"u", "t2", "hello"⟩ = some r2 ∧ r2.tenantId = "t2") :=
  fingerprintTenantScoping (fun t _ _ => if t = "t1" then some 2 else some 5)
    0 1 ⟨[], [], []⟩ "u" "t1" "t2" "a.txt" "hello" 2 5
    (by decide) (by decide) (by decide) rfl rfl (by decide) (by decide)

theorem finalEntry_name (now : Nat) (f : SelectedFile) :
    (finalEntry now f).name = f.name := by
  cases hout : f.outcome <;> simp [finalEntry, hout]

theorem map_id_of_names_ne (st : ChatState) (nm : String)
    (h : ∀ x ∈ st.files, x.name ≠ nm) (F : UploadedFile → UploadedFile) :
    st.files.map (fun x => if x.name = nm then F x else x) = st.files := by
  have h2 : st.files.map (fun x => if x.name = nm then F x else x)
      = st.files.map id :=
    List.map_congr_left (fun x hx => by rw [if_neg (h x hx)]; rfl)
  simpa using h2

theorem processOneFile_fresh (now : Nat) (st : ChatState) (f : SelectedFile)
    (h : ∀ x ∈ st.files, x.name ≠ f.name) :
    (processOneFile now st f).files = finalEntry now f :: st.files ∧
    (processOneFile now st f).uploading = st.uploading ∧
    (processOneFile now st f).fileInputValue = st.fileInputValue := by
  cases hout : f.outcome with
  | succeeded chunks already =>
    unfold processOneFile
    rw [hout]
    dsimp only
    refine ⟨?_, rfl, rfl⟩
    rw [List.map_cons, map_id_of_names_ne st f.name h, List.map_cons,
      map_id_of_names_ne st f.name h]
    simp [finalEntry, hout]
  | failed m =>
    unfold processOneFile
    rw [hout]
    dsimp only
    refine ⟨?_, rfl, rfl⟩
    rw [List.map_cons, map_id_of_names_ne st f.name h, List.map_cons,
      map_id_of_names_ne st f.name h]
    simp [finalEntry, hout]

theorem foldl_processOneFile_fresh (now : Nat) :
    ∀ (sel : List SelectedFile) (st : ChatState),
      (∀ f ∈ sel, ∀ x ∈ st.files, x.name ≠ f.name) →
      (sel.map SelectedFile.name).Nodup →
      (List.foldl (processOneFile now) st sel).files
          = (sel.map (finalEntry now)).reverse ++ st.files ∧
      (List.foldl (processOneFile now) st sel).uploading = st.uploading ∧
      (List.foldl (processOneFile now) st sel).fileInputValue
          = st.fileInputValue := by
  intro sel
  induction sel with
  | nil =>
    intro st _ _
    exact ⟨by simp, rfl, rfl⟩
  | cons f rest ih =>
    intro st hfresh hnodup
    obtain ⟨h1, h2, h3⟩ :=
      processOneFile_fresh now st f (hfresh f (List.mem_cons_self f rest))
    have hnodup' : (rest.map SelectedFile.name).Nodup := by
      rw [List.map_cons] at hnodup
      exact (List.nodup_cons.mp hnodup).2
    have hfname : f.name ∉ rest.map SelectedFile.name := by
      rw [List.map_cons] at hnodup
      exact (List.nodup_cons.mp hnodup).1
    have hfresh' : ∀ g ∈ rest, ∀ x ∈ (processOneFile now st f).files,
        x.name ≠ g.name := by
      intro g hg x hx
      rw [h1] at hx
      rcases List.mem_cons.mp hx with rfl | hxmem
      · rw [finalEntry_name]
        intro heq
        apply hfname
        rw [heq]
        exact List.mem_map_of_mem SelectedFile.name hg
      · exact hfresh g (List.mem_cons_of_mem f hg) x hxmem
    obtain ⟨i1, i2, i3⟩ := ih (processOneFile now st f) hfresh' hnodup'
    refine ⟨?_, by rw [List.foldl_cons, i2, h2],
      by rw [List.foldl_cons, i3, h3]⟩
    rw [List.foldl_cons, i1, h1]
    simp

/-- C9: multi-file upload is fault-isolated per file — for a nonempty
selection of distinctly and freshly named files, every selected file's
session-history entry ends with its own outcome's status (`error` only
for the files whose upload failed, `completed` for the ones that
succeeded, so one failure does not stop the remaining uploads), every
pre-existing entry survives untouched, and after the loop the
`uploading` flag is cleared and the file input value reset regardless
of how many files failed. -/
theorem uploadLoopFaultIsolation (now : Nat) (st : ChatState)
    (sel : List SelectedFile)
    (hne : sel ≠ [])
    (hnodup : (sel.map SelectedFile.name).Nodup)
    (hfresh : ∀ f ∈ sel, ∀ x ∈ st.files, x.name ≠ f.name) :
    (handleFileSelect now st sel).uploading = false ∧
    (handleFileSelect now st sel).fileInputValue = "" ∧
    (handleFileSelect now st sel).files
        = (sel.map (finalEntry now)).reverse ++ st.files ∧
    (∀ f ∈ sel, finalEntry now f ∈ (handleFileSelect now st sel).files) ∧
    (∀ x ∈ st.files, x ∈ (handleFileSelect now st sel).files) := by
  have hsel : sel.isEmpty = false := by
    cases sel with
    | nil => exact absurd rfl hne
    | cons a l => rfl
  obtain ⟨hfiles, hupl, hinp⟩ := foldl_processOneFile_fresh now sel
    { st with uploading := true, errorMsg := none, uploadSuccess := none }
    (fun f hf x hx => hfresh f hf x hx) hnodup
  have hF : (handleFileSelect now st sel).files
      = (sel.map (finalEntry now)).reverse ++ st.files := by
    unfold handleFileSelect
    rw [hsel]
    dsimp only
    exact hfiles
  have hU : (handleFileSelect now st sel).uploading = false := by
    unfold handleFileSelect
    rw [hsel]
    rfl
  have hV : (handleFileSelect now st sel).fileInputValue = "" := by
    unfold handleFileSelect
    rw [hsel]
    rfl
  refine ⟨hU, hV, hF, ?_, ?_⟩
  · intro f hf
    rw [hF]
    apply List.mem_append_left
    rw [List.mem_reverse]
    exact List.mem_map_of_mem (finalEntry now) hf
  · intro x hx
    rw [hF]
    exact List.mem_append_right _ hx

theorem uploadLoopFaultIsolation_witness :
    (handleFileSelect 7 fixtureChatState fixtureSelection).uploading = false ∧
    (handleFileSelect 7 fixtureChatState fixtureSelection).fileInputValue = "" ∧
    (handleFileSelect 7 fixtureChatState fixtureSelection).files
        = (fixtureSelection.map (finalEntry 7)).reverse ++ fixtureChatState.files ∧
    (∀ f ∈ fixtureSelection,
       finalEntry 7 f ∈ (handleFileSelect 7 fixtureChatState fixtureSelection).files) ∧
    (∀ x ∈ fixtureChatState.files,
       x ∈ (handleFileSelect 7 fixtureChatState fixtureSelection).files) :=
  uploadLoopFaultIsolation 7 fixtureChatState fixtureSelection
    (by decide) (by decide) (by decide)

/-- C10: per-query provenance is never stale — `sendMessage` clears the
previously captured `lastVectorChunks`, `lastGraphNodes` and
`lastGraphLinks` before issuing each query, and for every issued query
attempt the resulting provenance is exactly the data returned by that
attempt on success and empty on failure, independent of what the
previous query had stored. -/
theorem provenanceNeverStale (st : ChatState)
    (outcome : Except String QueryResponseData)
    (hin : isBlank st.input = false) (hapi : st.apiUrl ≠ "") :
    ((sendMessageBegin st).lastVectorChunks = [] ∧
     (sendMessageBegin st).lastGraphNodes = [] ∧
     (sendMessageBegin st).lastGraphLinks = []) ∧
    (∀ e, outcome = Except.error e →
       (sendMessage st outcome).lastVectorChunks = [] ∧
       (sendMessage st outcome).lastGraphNodes = [] ∧
       (sendMessage st outcome).lastGraphLinks = []) ∧
    (∀ d, outcome = Except.ok d →
       (sendMessage st outcome).lastVectorChunks = d.vectorChunks.getD [] ∧
       (sendMessage st outcome).lastGraphNodes = d.graphragGraphNodes.getD [] ∧
       (sendMessage st outcome).lastGraphLinks = d.graphragGraphLinks.getD []) := by
  have hguard : (isBlank st.input || decide (st.apiUrl = "")) = false := by
    simp [hin, hapi]
  refine ⟨⟨rfl, rfl, rfl⟩, ?_, ?_⟩
  · rintro e rfl
    unfold sendMessage
    rw [hguard]
    exact ⟨rfl, rfl, rfl⟩
  · rintro d rfl
    unfold sendMessage
    rw [hguard]
    exact ⟨rfl, rfl, rfl⟩

theorem provenanceNeverStale_witness :
    ((sendMessageBegin fixtureChatState).lastVectorChunks = [] ∧
     (sendMessageBegin fixtureChatState).lastGraphNodes = [] ∧
     (sendMessageBegin fixtureChatState).lastGraphLinks = []) ∧
    ((sendMessage fixtureChatState (Except.error "backend down")).lastVectorChunks = [] ∧
     (sendMessage fixtureChatState (Except.error "backend down")).lastGraphNodes = [] ∧
     (sendMessage fixtureChatState (Except.error "backend down")).lastGraphLinks = []) :=
  ⟨(provenanceNeverStale fixtureChatState (Except.error "backend down")
      (by decide) (by decide)).1,
   (provenanceNeverStale fixtureChatState (Except.error "backend down")
      (by decide) (by decide)).2.1 "backend down" rfl⟩
